import Mathlib

/-!
Verification development for the bot-dashboard repository.

The repository ships the frontend of a bot process supervisor (TypeScript,
under `frontend/`).  The supervisor core itself (RestartPolicy, LogBuffer,
BotMonitor, StatsSampler, SupervisorRegistry) is described by the design
document but its implementation is not part of the source tree; where a
definition embeds that missing core it is marked `Modelled from the spec:`
and follows the design document's words.  Definitions taken from the
TypeScript sources name the file they come from.
-/

namespace BotDashboard

/-- The `BotStatus` enum, from `frontend/types/bot.ts`: the five lifecycle
states of a bot, serialized at the interface as the lowercase strings
given in the enum. -/
inductive BotStatus where
  | stopped
  | starting
  | running
  | stopping
  | crashed
deriving DecidableEq, Repr

/-- The string value of each `BotStatus` enum member, from
`frontend/types/bot.ts`. -/
def BotStatus.toString : BotStatus → String
  | .stopped => "stopped"
  | .starting => "starting"
  | .running => "running"
  | .stopping => "stopping"
  | .crashed => "crashed"

/-- Inverse of `BotStatus.toString`: parse a status string arriving at the
external interface; strings outside the five enum values are rejected. -/
def BotStatus.ofString? (s : String) : Option BotStatus :=
  if s == "stopped" then some .stopped
  else if s == "starting" then some .starting
  else if s == "running" then some .running
  else if s == "stopping" then some .stopping
  else if s == "crashed" then some .crashed
  else none

/-- The `LogLevel` enum, from `frontend/types/log.ts`. -/
inductive LogLevel where
  | DEBUG
  | INFO
  | WARNING
  | ERROR
  | CRITICAL
deriving DecidableEq, Repr

/-- String value of each `LogLevel` enum member, from
`frontend/types/log.ts`. -/
def LogLevel.toString : LogLevel → String
  | .DEBUG => "DEBUG"
  | .INFO => "INFO"
  | .WARNING => "WARNING"
  | .ERROR => "ERROR"
  | .CRITICAL => "CRITICAL"

/-- The `LogEntry` record, from `frontend/types/log.ts`. -/
structure LogEntry where
  id : Nat
  bot_id : String
  timestamp : String
  level : LogLevel
  message : String
deriving DecidableEq, Repr

/-- The `LogWebSocketMessage` record, from `frontend/types/log.ts`: a streamed log
message; the optional `type` field carries `"ping"` on keep-alive
markers and is absent on real entries. -/
structure LogWebSocketMessage where
  timestamp : String
  level : String
  message : String
  type : Option String
deriving DecidableEq, Repr

/-! Section: RestartPolicy (supervisor core). -/

/-- Modelled from the spec: `RestartState`, part of BotMonitor, holding
`consecutive_crash_count` and `next_allowed_restart_at`. -/
structure RestartState where
  consecutive_crash_count : Nat
  next_allowed_restart_at : Nat
deriving DecidableEq, Repr

/-- The four decisions of the restart policy.  Modelled from the spec:
`{RestartNow, RestartAfter(delay), GiveUpAndMarkCrashed, DoNothing}`. -/
inductive RestartDecision where
  | RestartNow
  | RestartAfter (delay : Nat)
  | GiveUpAndMarkCrashed
  | DoNothing
deriving DecidableEq, Repr

/-- Configuration inputs of the restart policy.  Modelled from the spec:
backoff base seconds (default 10, `BOT_RESTART_BACKOFF_SECONDS`), the cap
on the backoff exponent, and the maximum retry ceiling. -/
structure RestartConfig where
  base_backoff : Nat
  exp_cap : Nat
  max_retries : Nat
deriving DecidableEq, Repr

namespace RestartPolicy

/-- Modelled from the spec:
`delay = base_backoff * 2^min(consecutive_crash_count, cap)`. -/
def backoffDelay (cfg : RestartConfig) (count : Nat) : Nat :=
  cfg.base_backoff * 2 ^ min count cfg.exp_cap

/-- Modelled from the spec: the pure decision function
`decide(restartState, auto_restart, wasRequested)`.  Requested exits get
`DoNothing`; with auto-restart off a crash gets `GiveUpAndMarkCrashed`;
otherwise a restart is scheduled with exponential backoff while the
crash count is still within the maximum retry ceiling.  The ceiling test
is `consecutive_crash_count < max_retries`: the design document's crash
scenario (counts 0, 1, 2 restarted; a fourth crash at count 3 with a
max-retry of 3 gives up) fixes this reading of "has not exceeded the
maximum retry ceiling". -/
def decide (cfg : RestartConfig) (st : RestartState)
    (auto_restart wasRequested : Bool) : RestartDecision :=
  if wasRequested then
    .DoNothing
  else if !auto_restart then
    .GiveUpAndMarkCrashed
  else if st.consecutive_crash_count < cfg.max_retries then
    .RestartAfter (backoffDelay cfg st.consecutive_crash_count)
  else
    .GiveUpAndMarkCrashed

/-- Modelled from the spec: the sequence of crash-triggered decisions in a
crash loop inside the stability window — the i-th unrequested exit is
decided at `consecutive_crash_count = i` (the count increments when each
restart attempt begins). -/
def decisionsAfterCrashes (cfg : RestartConfig) (n : Nat) : List RestartDecision :=
  (List.range n).map fun i => decide cfg ⟨i, 0⟩ true false

end RestartPolicy

/-! Section: LogBuffer (supervisor core). -/

/-- Modelled from the spec: the bounded per-bot log store — a fixed
capacity and the retained entries, oldest first (arrival order). -/
structure LogBuffer where
  capacity : Nat
  entries : List LogEntry
deriving DecidableEq, Repr

namespace LogBuffer

/-- Modelled from the spec: a freshly created buffer of the configured
capacity holds no entries. -/
def empty (cap : Nat) : LogBuffer := ⟨cap, []⟩

/-- Modelled from the spec: `append(entry)` adds the entry at the new end
and, on overflow, evicts oldest entries first (FIFO) so the buffer never
exceeds its configured capacity. -/
def append (b : LogBuffer) (e : LogEntry) : LogBuffer :=
  let es := b.entries ++ [e]
  ⟨b.capacity, es.drop (es.length - b.capacity)⟩

/-- Appending a whole arrival sequence, one entry at a time. -/
def appendAll (b : LogBuffer) (es : List LogEntry) : LogBuffer :=
  es.foldl append b

/-- Modelled from the spec: `page(offset, limit)` returns an ordered
window of the retained entries. -/
def page (b : LogBuffer) (offset limit : Nat) : List LogEntry :=
  (b.entries.drop offset).take limit

/-- Modelled from the spec: `getLogs(bot_id, page, page_size)` — page 1 is
the most recent `page_size` retained entries in arrival order, page 2 the
`page_size` entries before those, and so on. -/
def getLogs (b : LogBuffer) (pg page_size : Nat) : List LogEntry :=
  (b.entries.drop (b.entries.length - pg * page_size)).take page_size

end LogBuffer

/-- Predicate: `xs` occurs contiguously and in order inside `ys`. -/
def contiguousIn (xs ys : List LogEntry) : Prop :=
  ∃ pre post, ys = pre ++ xs ++ post

/-! Section: log streaming (supervisor core, message type from
`frontend/types/log.ts`). -/

/-- Conversion of a real log entry to its WebSocket message, per
`frontend/types/log.ts`: timestamp, level and message are carried over
and the optional `type` field is absent. -/
def toWsMessage (e : LogEntry) : LogWebSocketMessage :=
  ⟨e.timestamp, e.level.toString, e.message, none⟩

/-- The keep-alive marker, per `frontend/types/log.ts`: a message whose
`type` field is `"ping"`. -/
def keepAliveMsg : LogWebSocketMessage :=
  ⟨"", "", "", some "ping"⟩

/-- Test distinguishing the keep-alive marker: a message is a keep-alive
exactly when its `type` field is `"ping"`. -/
def LogWebSocketMessage.isKeepAlive (m : LogWebSocketMessage) : Bool :=
  m.type == some "ping"

/-- Modelled from the spec: `streamLogs(bot_id)` / `subscribe` delivered
over discrete ticks.  At each tick either a new entry arrives (it is
forwarded at once and the idle clock resets) or none does; once no entry
has arrived for `interval` consecutive ticks a keep-alive marker is
emitted and the idle clock resets. -/
def streamLogs (interval : Nat) :
    List (Option LogEntry) → Nat → List LogWebSocketMessage
  | [], _ => []
  | some e :: rest, _ => toWsMessage e :: streamLogs interval rest 0
  | none :: rest, idle =>
    if interval ≤ idle + 1 then keepAliveMsg :: streamLogs interval rest 0
    else streamLogs interval rest (idle + 1)

/-! Section: StatsSampler (supervisor core, snapshot fields from the
stats type definitions). -/

/-- The per-bot snapshot `(cpu_percent, ram_mb, uptime_seconds)`, the
fields of `BotStats` in the stats type definitions that are present
exactly when the bot is running. -/
structure StatsSnapshot where
  cpu_percent : Nat
  ram_mb : Nat
  uptime_seconds : Nat
deriving DecidableEq, Repr

/-- Modelled from the spec: `sample(processHandles)` — for each
enumerated `(bot_id, process_id)` pair a snapshot is produced only if
the process is still alive at sampling time; a process that disappeared
between enumeration and sampling yields no snapshot for that bot this
tick (not an error). -/
def sample (alive : Nat → Bool) (readStats : Nat → StatsSnapshot)
    (handles : List (String × Nat)) : List (String × StatsSnapshot) :=
  handles.filterMap fun p =>
    if alive p.2 then some (p.1, readStats p.2) else none

/-- Modelled from the spec: `getBotStats(bot_id)` — the per-bot snapshot
of the current tick, absent if the bot's process yielded none. -/
def getBotStats (alive : Nat → Bool) (readStats : Nat → StatsSnapshot)
    (handles : List (String × Nat)) (bot_id : String) : Option StatsSnapshot :=
  ((sample alive readStats handles).find? fun q => q.1 == bot_id).map
    fun q => q.2

/-! Section: bot lifecycle commands (supervisor core). -/

/-- Caller-facing error kinds, modelled from the spec taxonomy. -/
inductive CommandError where
  | LaunchError
  | StopError
  | ConflictingOperationError
  | PreconditionError
deriving DecidableEq, Repr

/-- The per-bot record as lifecycle commands see it.  Modelled from the
spec: identity, authoritative status and the restart counter. -/
structure BotState where
  id : String
  status : BotStatus
  restart_count : Nat
deriving DecidableEq, Repr

/-- Modelled from the spec: `delete(bot_id)` is permitted only from
STOPPED or CRASHED; in any other state it fails with a precondition
error and the bot is unchanged.  The second component is the bot's
record after the command (`none` once deleted). -/
def deleteBot (s : BotState) : Except CommandError Unit × Option BotState :=
  match s.status with
  | .stopped => (.ok (), none)
  | .crashed => (.ok (), none)
  | _ => (.error .PreconditionError, some s)

/-! Section: API client (`frontend/lib/api/client.ts`). -/

/-- Browser `localStorage` as the API client uses it: an association
list of keys to string values. -/
abbrev Storage := List (String × String)

/-- Embedding of `localStorage.getItem`. -/
def Storage.getItem (st : Storage) (k : String) : Option String :=
  (st.find? fun p => p.1 == k).map fun p => p.2

/-- Embedding of `localStorage.removeItem`. -/
def Storage.removeItem (st : Storage) (k : String) : Storage :=
  st.filter fun p => p.1 != k

/-- The part of the axios request configuration the interceptor
mutates: the `Authorization` header, absent unless set. -/
structure RequestConfig where
  authorization : Option String
deriving DecidableEq, Repr

/-- The request interceptor of `frontend/lib/api/client.ts`: it reads
`access_token` from storage and, because the source guards with the JS
truthiness test `if (token)`, attaches `Bearer <token>` only when the
stored value is present and non-empty. -/
def requestInterceptor (storage : Storage) (config : RequestConfig) :
    RequestConfig :=
  match storage.getItem "access_token" with
  | some token =>
    if token ≠ "" then { config with authorization := some ("Bearer " ++ token) }
    else config
  | none => config

/-- An axios error as the response interceptor sees it:
`error.response?.status`, absent when the request got no response. -/
structure AxiosError where
  status : Option Nat
deriving DecidableEq, Repr

/-- The response error interceptor of `frontend/lib/api/client.ts`: on
HTTP status 401 it removes both stored tokens; in every case it
re-rejects the original error (the request is not retried).  The result
is the updated storage and the propagated error. -/
def responseErrorInterceptor (storage : Storage) (err : AxiosError) :
    Storage × AxiosError :=
  if err.status == some 401 then
    ((storage.removeItem "access_token").removeItem "refresh_token", err)
  else
    (storage, err)

/-! Section: StatusBadge (`frontend/components/dashboard/StatusBadge`). -/

/-- The badge configuration `getStatusConfig` computes: badge variant,
label and status-dot css class. -/
structure StatusConfig where
  variant : String
  label : String
  dotClass : String
deriving DecidableEq, Repr

/-- Embedding of `getStatusConfig` from the StatusBadge component: a
total dispatch on the status string (the TS `BotStatus` enum members are
strings) with an Unknown/secondary fallback for any other value. -/
def getStatusConfig (status : String) : StatusConfig :=
  if status == "running" then ⟨"default", "Running", "status-running"⟩
  else if status == "stopped" then ⟨"secondary", "Stopped", "status-stopped"⟩
  else if status == "crashed" then ⟨"destructive", "Crashed", "status-crashed"⟩
  else if status == "starting" then ⟨"outline", "Starting", "status-starting"⟩
  else if status == "stopping" then ⟨"outline", "Stopping", "status-stopping"⟩
  else ⟨"secondary", "Unknown", "status-stopped"⟩

/-- A single `append` keeps the retained entries equal to a suffix of the
arrival sequence cut to capacity. -/
theorem logBuffer_append_entries (b : LogBuffer) (e : LogEntry) :
    (b.append e).entries =
      (b.entries ++ [e]).drop (b.entries.length + 1 - b.capacity) := by
  simp [LogBuffer.append]

/-- The retained entries of a buffer built by appending the arrival list
`as` onto `b` are exactly the last `capacity` elements of
`b.entries ++ as`, provided `b` starts within capacity. -/
theorem logBuffer_appendAll_entries (as : List LogEntry) (b : LogBuffer)
    (hb : b.entries.length ≤ b.capacity) :
    (b.appendAll as).capacity = b.capacity ∧
    (b.appendAll as).entries =
      (b.entries ++ as).drop ((b.entries ++ as).length - b.capacity) := by
  induction as generalizing b with
  | nil =>
    refine ⟨rfl, ?_⟩
    have hz : b.entries.length - b.capacity = 0 := by omega
    simp [LogBuffer.appendAll, hz]
  | cons a as ih =>
    have hstep : (b.append a).entries.length ≤ (b.append a).capacity := by
      simp [LogBuffer.append]
      omega
    have ihb := ih (b.append a) hstep
    have hcap : (b.append a).capacity = b.capacity := by
      simp [LogBuffer.append]
    have hfold : b.appendAll (a :: as) = (b.append a).appendAll as := rfl
    constructor
    · rw [hfold, ihb.1, hcap]
    · have hle : b.entries.length + 1 - b.capacity ≤ (b.entries ++ [a]).length := by
        simp
      have key : (b.append a).entries ++ as =
          (b.entries ++ [a] ++ as).drop (b.entries.length + 1 - b.capacity) := by
        rw [logBuffer_append_entries, List.drop_append_of_le_length hle]
      have h₂ := ihb.2
      rw [key, List.drop_drop, hcap] at h₂
      rw [hfold, h₂]
      have hl : (b.entries ++ [a] ++ as) = b.entries ++ a :: as := by simp
      rw [hl]
      congr 1
      simp
      omega

/-- Any drop-then-take window of a list occurs contiguously inside it. -/
theorem contiguousIn_drop_take (l : List LogEntry) (o k : Nat) :
    contiguousIn ((l.drop o).take k) l := by
  refine ⟨l.take o, (l.drop o).drop k, ?_⟩
  rw [List.append_assoc, List.take_append_drop, List.take_append_drop]

/-- C1: `RestartPolicy.decide` returns `DoNothing` on every requested
exit, `GiveUpAndMarkCrashed` on a crash with auto-restart disabled, and
otherwise schedules `RestartAfter` with delay
`base_backoff * 2^min(consecutive_crash_count, exp_cap)` while the crash
count is within the maximum retry ceiling, giving up once it is not. -/
theorem restartPolicy_decide_cases (cfg : RestartConfig) (st : RestartState)
    (ar wr : Bool) :
    (wr = true → RestartPolicy.decide cfg st ar wr = .DoNothing) ∧
    (wr = false → ar = false →
      RestartPolicy.decide cfg st ar wr = .GiveUpAndMarkCrashed) ∧
    (wr = false → ar = true → st.consecutive_crash_count < cfg.max_retries →
      RestartPolicy.decide cfg st ar wr =
        .RestartAfter (cfg.base_backoff * 2 ^ min st.consecutive_crash_count cfg.exp_cap)) ∧
    (wr = false → ar = true → cfg.max_retries ≤ st.consecutive_crash_count →
      RestartPolicy.decide cfg st ar wr = .GiveUpAndMarkCrashed) := by
  refine ⟨?_, ?_, ?_, ?_⟩ <;> intro h₁ <;> subst h₁ <;>
    simp [RestartPolicy.decide, RestartPolicy.backoffDelay]
  · intro h₂; subst h₂; simp
  · intro h₂ h₃; subst h₂; simp [h₃]
  · intro h₂ h₃; subst h₂; simp; omega

/-- Witness for C1: concrete evaluations of each branch of
`RestartPolicy.decide` with base backoff 10, exponent cap 5 and
max-retry ceiling 3. -/
theorem restartPolicy_decide_cases_witness :
    RestartPolicy.decide ⟨10, 5, 3⟩ ⟨2, 0⟩ true true = .DoNothing ∧
    RestartPolicy.decide ⟨10, 5, 3⟩ ⟨2, 0⟩ false false = .GiveUpAndMarkCrashed ∧
    RestartPolicy.decide ⟨10, 5, 3⟩ ⟨2, 0⟩ true false = .RestartAfter (10 * 2 ^ min 2 5) ∧
    RestartPolicy.decide ⟨10, 5, 3⟩ ⟨3, 0⟩ true false = .GiveUpAndMarkCrashed :=
  ⟨(restartPolicy_decide_cases ⟨10, 5, 3⟩ ⟨2, 0⟩ true true).1 rfl,
   (restartPolicy_decide_cases ⟨10, 5, 3⟩ ⟨2, 0⟩ false false).2.1 rfl rfl,
   (restartPolicy_decide_cases ⟨10, 5, 3⟩ ⟨2, 0⟩ true false).2.2.1 rfl rfl (by decide),
   (restartPolicy_decide_cases ⟨10, 5, 3⟩ ⟨3, 0⟩ true false).2.2.2 rfl rfl (by decide)⟩

/-- C2: `RestartPolicy.decide` is pure and deterministic (equal inputs
give equal decisions), the backoff delay is non-decreasing in the crash
count, and in the concrete scenario (base 10s, max-retry 3) the four
successive crash decisions are restarts after 10s, 20s, 40s followed by
`GiveUpAndMarkCrashed`. -/
theorem restartPolicy_deterministic_monotone (cfg : RestartConfig)
    (st₁ st₂ : RestartState) (ar wr : Bool) :
    (st₁ = st₂ →
      RestartPolicy.decide cfg st₁ ar wr = RestartPolicy.decide cfg st₂ ar wr) ∧
    (st₁.consecutive_crash_count ≤ st₂.consecutive_crash_count →
      RestartPolicy.backoffDelay cfg st₁.consecutive_crash_count ≤
        RestartPolicy.backoffDelay cfg st₂.consecutive_crash_count) ∧
    RestartPolicy.decisionsAfterCrashes ⟨10, 5, 3⟩ 4 =
      [.RestartAfter 10, .RestartAfter 20, .RestartAfter 40, .GiveUpAndMarkCrashed] := by
  refine ⟨fun h => by rw [h], fun h => ?_, by decide⟩
  unfold RestartPolicy.backoffDelay
  exact Nat.mul_le_mul_left _
    (Nat.pow_le_pow_right (by norm_num) (min_le_min h le_rfl))

/-- Witness for C2: determinism and delay monotonicity applied at the
concrete crash counts 1 and 2 with base backoff 10. -/
theorem restartPolicy_deterministic_monotone_witness :
    RestartPolicy.decide ⟨10, 5, 3⟩ ⟨1, 0⟩ true false =
      RestartPolicy.decide ⟨10, 5, 3⟩ ⟨1, 0⟩ true false ∧
    RestartPolicy.backoffDelay ⟨10, 5, 3⟩ 1 ≤ RestartPolicy.backoffDelay ⟨10, 5, 3⟩ 2 :=
  ⟨(restartPolicy_deterministic_monotone ⟨10, 5, 3⟩ ⟨1, 0⟩ ⟨1, 0⟩ true false).1 rfl,
   (restartPolicy_deterministic_monotone ⟨10, 5, 3⟩ ⟨1, 0⟩ ⟨2, 0⟩ true false).2.1
     (by decide)⟩

/-- C3: for every sequence of appends into a buffer of capacity `cap`,
the retained entries never exceed `cap`; the retained entries are exactly
the most recent arrivals (the oldest evicted first, FIFO — in particular
an overflowing append evicts exactly the head entry); and every `page`
read is a contiguous, arrival-ordered window of the retained entries. -/
theorem logBuffer_capacity_fifo_page (cap : Nat) (as : List LogEntry) :
    ((LogBuffer.empty cap).appendAll as).entries.length ≤ cap ∧
    ((LogBuffer.empty cap).appendAll as).entries = as.drop (as.length - cap) ∧
    (∀ offset limit,
      contiguousIn (((LogBuffer.empty cap).appendAll as).page offset limit)
        ((LogBuffer.empty cap).appendAll as).entries) ∧
    (∀ (b : LogBuffer) (e : LogEntry), b.entries.length = b.capacity →
      0 < b.capacity → (b.append e).entries = b.entries.tail ++ [e]) := by
  obtain ⟨-, he⟩ :=
    logBuffer_appendAll_entries as (LogBuffer.empty cap) (by simp [LogBuffer.empty])
  have hent : (LogBuffer.empty cap).entries = [] := rfl
  have hcap0 : (LogBuffer.empty cap).capacity = cap := rfl
  rw [hent, hcap0, List.nil_append] at he
  refine ⟨?_, he, ?_, ?_⟩
  · rw [he]
    simp
    omega
  · intro offset limit
    exact contiguousIn_drop_take _ offset limit
  · intro b e hfull hpos
    rw [logBuffer_append_entries, hfull]
    have h1 : b.capacity + 1 - b.capacity = 1 := by omega
    have hle : 1 ≤ b.entries.length := by omega
    rw [h1, List.drop_append_of_le_length hle, List.drop_one]

/-- Witness for C3: a full two-entry buffer of capacity 2 evicts its
oldest entry on the next append. -/
theorem logBuffer_capacity_fifo_page_witness :
    (LogBuffer.mk 2 [⟨0, "b", "t", .INFO, "a"⟩, ⟨1, "b", "t", .INFO, "b"⟩]).entries.length =
      (LogBuffer.mk 2 [⟨0, "b", "t", .INFO, "a"⟩, ⟨1, "b", "t", .INFO, "b"⟩]).capacity ∧
    ((LogBuffer.mk 2 [⟨0, "b", "t", .INFO, "a"⟩, ⟨1, "b", "t", .INFO, "b"⟩]).append
        ⟨2, "b", "t", .INFO, "c"⟩).entries =
      [⟨1, "b", "t", .INFO, "b"⟩, ⟨2, "b", "t", .INFO, "c"⟩] :=
  ⟨by decide,
   (logBuffer_capacity_fifo_page 2 []).2.2.2
     (LogBuffer.mk 2 [⟨0, "b", "t", .INFO, "a"⟩, ⟨1, "b", "t", .INFO, "b"⟩])
     ⟨2, "b", "t", .INFO, "c"⟩ (by decide) (by decide)⟩

/-- C4: after appending 120 entries, `getLogs` at page 1 with page size 50
returns the most recent 50 entries in arrival order whenever the capacity
is at least 120; with capacity below 120 the buffer retains exactly the
newest `cap` entries (oldest evicted first) and the page read is a
contiguous window of those retained entries. -/
theorem getLogs_page1_of_120 (cap : Nat) (as : List LogEntry)
    (h : as.length = 120) :
    (120 ≤ cap → ((LogBuffer.empty cap).appendAll as).getLogs 1 50 = as.drop 70) ∧
    (cap < 120 →
      ((LogBuffer.empty cap).appendAll as).entries = as.drop (120 - cap) ∧
      contiguousIn (((LogBuffer.empty cap).appendAll as).getLogs 1 50)
        (((LogBuffer.empty cap).appendAll as).entries)) := by
  obtain ⟨-, he⟩ :=
    logBuffer_appendAll_entries as (LogBuffer.empty cap) (by simp [LogBuffer.empty])
  have hent : (LogBuffer.empty cap).entries = [] := rfl
  have hcap0 : (LogBuffer.empty cap).capacity = cap := rfl
  rw [hent, hcap0, List.nil_append] at he
  constructor
  · intro hcap
    have hz : as.length - cap = 0 := by omega
    rw [LogBuffer.getLogs, he, hz, List.drop_zero, h]
    norm_num
    omega
  · intro hcap
    refine ⟨by rw [he, h], ?_⟩
    exact contiguousIn_drop_take _ _ _

/-- Witness for C4: 120 concrete entries appended into a capacity-200
buffer; page 1 of size 50 is the arrival list's final 50 entries. -/
theorem getLogs_page1_of_120_witness :
    ((LogBuffer.empty 200).appendAll
        ((List.range 120).map fun i => ⟨i, "b", "t", .INFO, "m"⟩)).getLogs 1 50 =
      ((List.range 120).map fun i => (⟨i, "b", "t", .INFO, "m"⟩ : LogEntry)).drop 70 :=
  (getLogs_page1_of_120 200 ((List.range 120).map fun i => ⟨i, "b", "t", .INFO, "m"⟩)
    (by simp)).1 (by norm_num)

/-- C5: deleting a bot that is RUNNING, STARTING or STOPPING fails with
`PreconditionError` and leaves the bot record unchanged (in particular a
RUNNING bot stays RUNNING); a delete succeeds only from STOPPED or
CRASHED. -/
theorem deleteBot_precondition (s : BotState) :
    ((s.status = .running ∨ s.status = .starting ∨ s.status = .stopping) →
      deleteBot s = (.error .PreconditionError, some s)) ∧
    ((deleteBot s).1 = .ok () → s.status = .stopped ∨ s.status = .crashed) := by
  cases hs : s.status <;> simp [deleteBot, hs]

/-- Witness for C5: deleting a concrete RUNNING bot fails with a
precondition error and returns the record unchanged. -/
theorem deleteBot_precondition_witness :
    deleteBot ⟨"bot-1", .running, 2⟩ =
      (.error .PreconditionError, some ⟨"bot-1", .running, 2⟩) :=
  (deleteBot_precondition ⟨"bot-1", .running, 2⟩).1 (Or.inl rfl)

/-- After `interval` consecutive idle ticks starting from idle clock
`idle` with `idle + interval` ticks total elapsed, the stream emits
exactly one keep-alive and resets. -/
theorem streamLogs_replicate (interval : Nat) :
    ∀ (m idle : Nat) (rest : List (Option LogEntry)), idle + m = interval →
      1 ≤ m →
      streamLogs interval (List.replicate m none ++ rest) idle =
        keepAliveMsg :: streamLogs interval rest 0 := by
  intro m
  induction m with
  | zero => intro idle rest h h1; omega
  | succ m ih =>
    intro idle rest h h1
    simp only [List.replicate_succ, List.cons_append, streamLogs]
    by_cases hm : m = 0
    · subst hm
      have hcond : interval ≤ idle + 1 := by omega
      rw [if_pos hcond]
      simp
    · have hcond : ¬ interval ≤ idle + 1 := by omega
      rw [if_neg hcond]
      exact ih (idle + 1) rest (by omega) (by omega)

/-- C6: every message delivered by `streamLogs` is either a forwarded
real entry from the timeline or the keep-alive marker; the keep-alive is
distinguishable from every real entry by its message `type`; and
whenever no entry arrives for `interval` consecutive ticks a keep-alive
is emitted. -/
theorem streamLogs_messages (interval : Nat) (hk : 1 ≤ interval) :
    (∀ (timeline : List (Option LogEntry)) (idle : Nat)
        (m : LogWebSocketMessage), m ∈ streamLogs interval timeline idle →
      m = keepAliveMsg ∨ ∃ e, some e ∈ timeline ∧ m = toWsMessage e) ∧
    (keepAliveMsg.isKeepAlive = true ∧
      ∀ e : LogEntry, (toWsMessage e).isKeepAlive = false) ∧
    (∀ rest : List (Option LogEntry),
      streamLogs interval (List.replicate interval none ++ rest) 0 =
        keepAliveMsg :: streamLogs interval rest 0) := by
  refine ⟨?_, ⟨rfl, fun e => rfl⟩, fun rest =>
    streamLogs_replicate interval interval 0 rest (by omega) hk⟩
  intro timeline
  induction timeline with
  | nil => intro idle m hm; simp [streamLogs] at hm
  | cons o rest ih =>
    intro idle m hm
    cases o with
    | some e =>
      simp only [streamLogs] at hm
      rcases List.mem_cons.mp hm with h | h
      · exact Or.inr ⟨e, by simp, h⟩
      · rcases ih 0 m h with h' | ⟨e', he', hm'⟩
        · exact Or.inl h'
        · exact Or.inr ⟨e', by simp [he'], hm'⟩
    | none =>
      simp only [streamLogs] at hm
      by_cases hi : interval ≤ idle + 1
      · rw [if_pos hi] at hm
        rcases List.mem_cons.mp hm with h | h
        · exact Or.inl h
        · rcases ih 0 m h with h' | ⟨e', he', hm'⟩
          · exact Or.inl h'
          · exact Or.inr ⟨e', by simp [he'], hm'⟩
      · rw [if_neg hi] at hm
        rcases ih (idle + 1) m hm with h' | ⟨e', he', hm'⟩
        · exact Or.inl h'
        · exact Or.inr ⟨e', by simp [he'], hm'⟩

/-- Witness for C6: with a two-tick keep-alive interval, two idle ticks
produce exactly the keep-alive marker; a forwarded concrete entry is not
a keep-alive; and the classification applies to the marker itself. -/
theorem streamLogs_messages_witness :
    streamLogs 2 (List.replicate 2 none ++ []) 0 =
      keepAliveMsg :: streamLogs 2 [] 0 ∧
    (toWsMessage ⟨0, "b", "t", .INFO, "m"⟩).isKeepAlive = false ∧
    (keepAliveMsg = keepAliveMsg ∨
      ∃ e, some e ∈ [(none : Option LogEntry), none] ∧
        keepAliveMsg = toWsMessage e) :=
  ⟨(streamLogs_messages 2 (by decide)).2.2 [],
   (streamLogs_messages 2 (by decide)).2.1.2 ⟨0, "b", "t", .INFO, "m"⟩,
   (streamLogs_messages 2 (by decide)).1 [none, none] 0 keepAliveMsg (by decide)⟩

/-- Unfolding of `sample` over one enumerated handle. -/
theorem sample_cons (alive : Nat → Bool) (readStats : Nat → StatsSnapshot)
    (p : String × Nat) (t : List (String × Nat)) :
    sample alive readStats (p :: t) =
      if alive p.2 then (p.1, readStats p.2) :: sample alive readStats t
      else sample alive readStats t := by
  by_cases ha : alive p.2 <;> simp [sample, List.filterMap_cons, ha]

/-- A bot id absent from the enumerated handles is absent from the
sample. -/
theorem sample_find_none (alive : Nat → Bool) (readStats : Nat → StatsSnapshot)
    (t : List (String × Nat)) (bid : String) (hb : bid ∉ t.map Prod.fst) :
    (sample alive readStats t).find? (fun q => q.1 == bid) = none := by
  rw [List.find?_eq_none]
  intro q hq
  rw [sample, List.mem_filterMap] at hq
  obtain ⟨p, hp, hfp⟩ := hq
  by_cases ha : alive p.2
  · rw [if_pos ha] at hfp
    obtain rfl := Option.some.inj hfp
    simp only [beq_iff_eq]
    intro h
    exact hb (List.mem_map.mpr ⟨p, hp, h⟩)
  · rw [if_neg ha] at hfp
    exact absurd hfp (by simp)

/-- C7: for a bot enumerated with process id `pid`, `getBotStats` yields
the sampled snapshot when the process is still alive at sampling time
and yields no snapshot (absent, not an error) when the process has
disappeared between enumeration and sampling. -/
theorem getBotStats_alive (alive : Nat → Bool) (readStats : Nat → StatsSnapshot)
    (bid : String) (pid : Nat) :
    ∀ handles : List (String × Nat), (handles.map Prod.fst).Nodup →
      (bid, pid) ∈ handles →
      getBotStats alive readStats handles bid =
        if alive pid then some (readStats pid) else none := by
  intro handles
  induction handles with
  | nil => intro _ hmem; simp at hmem
  | cons p t ih =>
    intro hnd hmem
    rw [List.map_cons] at hnd
    obtain ⟨hp, hndt⟩ := List.nodup_cons.mp hnd
    rcases List.mem_cons.mp hmem with h1 | h2
    · subst h1
      by_cases ha : alive pid
      · rw [getBotStats, sample_cons, if_pos ha,
          List.find?_cons_of_pos _ (by simp), if_pos ha]
        rfl
      · rw [getBotStats, sample_cons, if_neg ha,
          sample_find_none alive readStats t bid (by simpa using hp), if_neg ha]
        rfl
    · have hbid : bid ∈ t.map Prod.fst := List.mem_map.mpr ⟨(bid, pid), h2, rfl⟩
      have hne : ¬ p.1 = bid := fun he => hp (he ▸ hbid)
      by_cases ha : alive p.2
      · rw [getBotStats, sample_cons, if_pos ha,
          List.find?_cons_of_neg _ (by simp [hne])]
        exact ih hndt h2
      · rw [getBotStats, sample_cons, if_neg ha]
        exact ih hndt h2

/-- Witness for C7: two enumerated bots of which only process 1 is still
alive at sampling time; the dead bot gets no snapshot, the live one gets
its sampled values. -/
theorem getBotStats_alive_witness :
    getBotStats (fun pid => pid == 1) (fun pid => ⟨pid, 2, 3⟩)
      [("a", 1), ("b", 2)] "b" = none ∧
    getBotStats (fun pid => pid == 1) (fun pid => ⟨pid, 2, 3⟩)
      [("a", 1), ("b", 2)] "a" = some ⟨1, 2, 3⟩ :=
  ⟨(getBotStats_alive (fun pid => pid == 1) (fun pid => ⟨pid, 2, 3⟩) "b" 2
      [("a", 1), ("b", 2)] (by decide) (by decide)).trans (by decide),
   (getBotStats_alive (fun pid => pid == 1) (fun pid => ⟨pid, 2, 3⟩) "a" 1
      [("a", 1), ("b", 2)] (by decide) (by decide)).trans (by decide)⟩

/-- C8: every `BotStatus` value is one of the five enum members; each
member serializes to one of the five interface strings; parsing inverts
serialization; and a status string is accepted at the interface exactly
when it is one of those five strings. -/
theorem botStatus_five_values :
    (∀ s : BotStatus, s = .stopped ∨ s = .starting ∨ s = .running ∨
      s = .stopping ∨ s = .crashed) ∧
    (∀ s : BotStatus,
      s.toString ∈ ["stopped", "starting", "running", "stopping", "crashed"]) ∧
    (∀ s : BotStatus, BotStatus.ofString? s.toString = some s) ∧
    (∀ str : String, (BotStatus.ofString? str).isSome = true ↔
      str ∈ ["stopped", "starting", "running", "stopping", "crashed"]) := by
  refine ⟨fun s => by cases s <;> simp,
    fun s => by cases s <;> simp [BotStatus.toString],
    fun s => by cases s <;> rfl, fun str => ?_⟩
  constructor
  · intro h
    rw [BotStatus.ofString?] at h
    split_ifs at h with h1 h2 h3 h4 h5
    · simp [beq_iff_eq.mp h1]
    · simp [beq_iff_eq.mp h2]
    · simp [beq_iff_eq.mp h3]
    · simp [beq_iff_eq.mp h4]
    · simp [beq_iff_eq.mp h5]
    · simp at h
  · intro h
    rcases List.mem_cons.mp h with rfl | h
    · decide
    rcases List.mem_cons.mp h with rfl | h
    · decide
    rcases List.mem_cons.mp h with rfl | h
    · decide
    rcases List.mem_cons.mp h with rfl | h
    · decide
    rcases List.mem_cons.mp h with rfl | h
    · decide
    · simp at h

/-- C9 counterexample: with `access_token` stored as the empty string
the key is present in localStorage, yet the request interceptor attaches
no Authorization header, because the source guards with the JS
truthiness test `if (token)` rather than key presence. -/
theorem requestInterceptor_empty_token :
    (Storage.getItem [("access_token", "")] "access_token").isSome = true ∧
    (requestInterceptor [("access_token", "")] ⟨none⟩).authorization = none := by
  constructor
  · rfl
  · rfl

/-- C9 (amended): the request interceptor attaches
`Bearer` followed by the stored access token exactly when localStorage
holds a non-empty `access_token` (an empty stored token is treated as
absent, per JS truthiness), and leaves the configuration untouched
otherwise; on every response error with HTTP status 401 both
`access_token` and `refresh_token` are removed from storage and the same
error is propagated (never retried); any other error propagates with
storage untouched. -/
theorem apiClient_interceptors (storage : Storage) (config : RequestConfig)
    (err : AxiosError) :
    (∀ t, storage.getItem "access_token" = some t → ¬ t = "" →
      (requestInterceptor storage config).authorization =
        some ("Bearer " ++ t)) ∧
    (storage.getItem "access_token" = some "" →
      requestInterceptor storage config = config) ∧
    (storage.getItem "access_token" = none →
      requestInterceptor storage config = config) ∧
    ((responseErrorInterceptor storage err).2 = err) ∧
    (err.status = some 401 →
      (responseErrorInterceptor storage err).1.getItem "access_token" = none ∧
      (responseErrorInterceptor storage err).1.getItem "refresh_token" = none) ∧
    (¬ err.status = some 401 →
      (responseErrorInterceptor storage err).1 = storage) := by
  have hnone : ∀ (st : Storage) (k : String), (∀ x ∈ st, ¬ x.1 = k) →
      st.getItem k = none := by
    intro st k h
    rw [Storage.getItem, List.find?_eq_none.mpr (fun x hx => by simp [h x hx])]
    rfl
  refine ⟨?_, ?_, ?_, ?_, ?_, ?_⟩
  · intro t ht hne
    unfold requestInterceptor
    rw [ht]
    simp [hne]
  · intro ht
    unfold requestInterceptor
    rw [ht]
    simp
  · intro ht
    unfold requestInterceptor
    rw [ht]
  · by_cases h : err.status = some 401 <;>
      simp [responseErrorInterceptor, h]
  · intro h
    have hred : (responseErrorInterceptor storage err).1 =
        (storage.removeItem "access_token").removeItem "refresh_token" := by
      simp [responseErrorInterceptor, h]
    rw [hred]
    constructor
    · apply hnone
      intro x hx
      have hx1 := (List.mem_filter.mp hx).1
      have hx2 := (List.mem_filter.mp hx1).2
      simpa using hx2
    · apply hnone
      intro x hx
      have hx2 := (List.mem_filter.mp hx).2
      simpa using hx2
  · intro h
    simp [responseErrorInterceptor, h]

/-- Witness for C9 (amended): a storage holding both tokens; the request
interceptor attaches the bearer header, and a 401 clears both tokens
while propagating the same error. -/
theorem apiClient_interceptors_witness :
    (requestInterceptor [("access_token", "tok"), ("refresh_token", "r")]
      ⟨none⟩).authorization = some ("Bearer " ++ "tok") ∧
    (responseErrorInterceptor [("access_token", "tok"), ("refresh_token", "r")]
      ⟨some 401⟩).2 = ⟨some 401⟩ ∧
    (responseErrorInterceptor [("access_token", "tok"), ("refresh_token", "r")]
      ⟨some 401⟩).1.getItem "access_token" = none ∧
    (responseErrorInterceptor [("access_token", "tok"), ("refresh_token", "r")]
      ⟨some 401⟩).1.getItem "refresh_token" = none :=
  ⟨(apiClient_interceptors [("access_token", "tok"), ("refresh_token", "r")]
      ⟨none⟩ ⟨some 401⟩).1 "tok" (by decide) (by decide),
   (apiClient_interceptors [("access_token", "tok"), ("refresh_token", "r")]
      ⟨none⟩ ⟨some 401⟩).2.2.2.1,
   ((apiClient_interceptors [("access_token", "tok"), ("refresh_token", "r")]
      ⟨none⟩ ⟨some 401⟩).2.2.2.2.1 rfl).1,
   ((apiClient_interceptors [("access_token", "tok"), ("refresh_token", "r")]
      ⟨none⟩ ⟨some 401⟩).2.2.2.2.1 rfl).2⟩

/-- C10: the StatusBadge configuration function is total over arbitrary
status strings: each of the five known statuses gets its fixed label and
variant, and every other input gets the Unknown label with the secondary
variant (it never fails). -/
theorem statusBadge_total (s : String)
    (h : s ∉ ["running", "stopped", "crashed", "starting", "stopping"]) :
    getStatusConfig s = ⟨"secondary", "Unknown", "status-stopped"⟩ ∧
    getStatusConfig "running" = ⟨"default", "Running", "status-running"⟩ ∧
    getStatusConfig "stopped" = ⟨"secondary", "Stopped", "status-stopped"⟩ ∧
    getStatusConfig "crashed" = ⟨"destructive", "Crashed", "status-crashed"⟩ ∧
    getStatusConfig "starting" = ⟨"outline", "Starting", "status-starting"⟩ ∧
    getStatusConfig "stopping" = ⟨"outline", "Stopping", "status-stopping"⟩ := by
  refine ⟨?_, by decide, by decide, by decide, by decide, by decide⟩
  simp only [List.mem_cons, List.not_mem_nil, or_false, not_or] at h
  obtain ⟨h1, h2, h3, h4, h5⟩ := h
  simp [getStatusConfig, h1, h2, h3, h4, h5]

/-- Witness for C10: an arbitrary unknown status string renders as the
Unknown badge with the secondary variant. -/
theorem statusBadge_total_witness :
    getStatusConfig "bogus" = ⟨"secondary", "Unknown", "status-stopped"⟩ :=
  (statusBadge_total "bogus" (by decide)).1

end BotDashboard
